import Mathlib

/-!
Shallow embedding of the Library-System repository (src/library.py).

Python dictionaries (`Dict[int, ...]`, Python 3.7+, insertion-ordered) are
modelled as association lists `List (Int × α)`; a `d[k] = v` store is
`alInsert` (replace in place when the key exists, append otherwise, which is
exactly Python's insertion-order behaviour), `del d[k]` is `alErase`, `d[k]`
lookup / `k in d` are `alLookup` / `alContains`.  Python `date` values are
modelled as `Int` (ordinal days), `timedelta(days = n)` addition as `+ n`, and
the nondeterministic `date.today()` is passed to each operation as an explicit
`today` argument.  Each `ValueError` raise site is mapped to the error kind the
specification gives it; mutating operations return the result together with
the post-state, also on failure, because Python mutates objects in place and a
raise after a field assignment leaves that assignment visible.
-/

namespace LibSys

abbrev Date := Int

/-- `User` dataclass (library.py, lines 11-18). -/
structure User where
  user_id : Int
  name : String
  email : String
deriving DecidableEq

/-- `Book` dataclass (library.py, lines 21-46). -/
structure Book where
  book_id : Int
  title : String
  author : String
  category : String
  total_copies : Int
  available_copies : Int
deriving DecidableEq

/-- `BorrowRecord` dataclass (library.py, lines 49-70). -/
structure BorrowRecord where
  record_id : Int
  user_id : Int
  book_id : Int
  borrow_date : Date
  due_date : Date
  return_date : Option Date := none
deriving DecidableEq

/-- Error kinds of the specification, one per `ValueError` raise site:
`notFound` for "... not found", `duplicateKey` for "... already exists",
`invalidArgument` for the add/update copy-count validations, `unavailable`
for "Book ... is not available", `alreadyReturned` for "Book already
returned for this record", `invariantViolation` for the defensive checks in
`Book.borrow_copy` / `Book.return_copy`. -/
inductive LibError where
  | notFound
  | duplicateKey
  | invalidArgument
  | unavailable
  | alreadyReturned
  | invariantViolation
deriving DecidableEq

instance {ε α : Type} [DecidableEq ε] [DecidableEq α] :
    DecidableEq (Except ε α) := fun a b =>
  match a, b with
  | .error e, .error f => decidable_of_iff (e = f) (by simp)
  | .error _, .ok _ => isFalse (by simp)
  | .ok _, .error _ => isFalse (by simp)
  | .ok x, .ok y => decidable_of_iff (x = y) (by simp)

/-- Python `str.lower`: lower-case the string character by character. -/
def lowerStr (s : String) : String := ⟨s.data.map Char.toLower⟩

/-- Is the first list a prefix of the second (character-wise)? -/
def isPrefixL : List Char → List Char → Bool
  | [], _ => true
  | _ :: _, [] => false
  | a :: as, b :: bs => a == b && isPrefixL as bs

/-- Python's `needle in haystack` on strings: contiguous-substring test. -/
def isSubstrL : List Char → List Char → Bool
  | n, [] => n.isEmpty
  | n, h :: t => isPrefixL n (h :: t) || isSubstrL n t

/-- Contiguous-substring test on `String`. -/
def substrB (needle hay : String) : Bool := isSubstrL needle.toList hay.toList

/-- First-match lookup in an association list (`d[k]` on a Python dict; for
dicts the keys are unique so first match is the match). -/
def alLookup {α : Type} : List (Int × α) → Int → Option α
  | [], _ => none
  | p :: t, k => if p.1 = k then some p.2 else alLookup t k

/-- Python `k in d`. -/
def alContains {α : Type} (l : List (Int × α)) (k : Int) : Bool :=
  (alLookup l k).isSome

/-- Python `d[k] = v`: replace in place when the key is present (this is also
how an in-place mutation of the object stored at `k` acts on the dict),
append otherwise. -/
def alInsert {α : Type} (l : List (Int × α)) (k : Int) (v : α) : List (Int × α) :=
  if alContains l k then l.map (fun p => if p.1 = k then (k, v) else p)
  else l ++ [(k, v)]

/-- Python `del d[k]`. -/
def alErase {α : Type} (l : List (Int × α)) (k : Int) : List (Int × α) :=
  l.filter (fun p => decide (p.1 ≠ k))

/-- `Book.is_available` (library.py, lines 30-31). -/
def Book.is_available (b : Book) : Bool := decide (b.available_copies > 0)

/-- `Book.borrow_copy` (library.py, lines 33-36). -/
def Book.borrow_copy (b : Book) : Except LibError Book :=
  if b.available_copies ≤ 0 then .error .invariantViolation
  else .ok { b with available_copies := b.available_copies - 1 }

/-- `Book.return_copy` (library.py, lines 38-42). -/
def Book.return_copy (b : Book) : Except LibError Book :=
  if b.available_copies ≥ b.total_copies then .error .invariantViolation
  else .ok { b with available_copies := b.available_copies + 1 }

/-- `BorrowRecord.mark_returned` (library.py, lines 58-59); the Python
`return_date or date.today()` default is resolved by the caller into `d`. -/
def BorrowRecord.mark_returned (r : BorrowRecord) (d : Date) : BorrowRecord :=
  { r with return_date := some d }

/-- `BorrowRecord.is_overdue` (library.py, lines 61-65); the `date.today()`
default is resolved by the caller into `today`. -/
def BorrowRecord.is_overdue (r : BorrowRecord) (today : Date) : Bool :=
  match r.return_date with
  | some _ => false
  | none => decide (today > r.due_date)

/-- The `Library` state: the three id-keyed dicts and the record-id counter
(library.py, lines 98-102). -/
structure Library where
  users : List (Int × User)
  books : List (Int × Book)
  records : List (Int × BorrowRecord)
  next_record_id : Int
deriving DecidableEq

/-- `Library.LOAN_DAYS` (library.py, line 96). -/
def LOAN_DAYS : Int := 14

/-- `Library.add_user` (library.py, lines 106-111). -/
def add_user (lib : Library) (uid : Int) (name email : String) :
    Except LibError User × Library :=
  if alContains lib.users uid then (.error .duplicateKey, lib)
  else
    let u : User := { user_id := uid, name := name, email := email }
    (.ok u, { lib with users := alInsert lib.users uid u })

/-- `Library.get_user` (library.py, lines 113-116); read-only. -/
def get_user (lib : Library) (uid : Int) : Except LibError User :=
  match alLookup lib.users uid with
  | none => .error .notFound
  | some u => .ok u

/-- `Library.add_book` (library.py, lines 120-141). -/
def add_book (lib : Library) (bid : Int) (title author category : String)
    (total_copies : Int) : Except LibError Book × Library :=
  if alContains lib.books bid then (.error .duplicateKey, lib)
  else if total_copies ≤ 0 then (.error .invalidArgument, lib)
  else
    let b : Book := { book_id := bid, title := title, author := author,
                      category := category, total_copies := total_copies,
                      available_copies := total_copies }
    (.ok b, { lib with books := alInsert lib.books bid b })

/-- The three in-place text-field assignments of `Library.update_book`
(library.py, lines 156-161). -/
def applyTextFields (b : Book) (title author category : Option String) : Book :=
  let b1 := match title with
    | some t => { b with title := t }
    | none => b
  let b2 := match author with
    | some a => { b1 with author := a }
    | none => b1
  match category with
  | some c => { b2 with category := c }
  | none => b2

/-- `Library.update_book` (library.py, lines 143-172).  Python mutates the
stored `Book` object field by field, so when the `total_copies` validation
raises, the text-field assignments already made are kept in the post-state. -/
def update_book (lib : Library) (bid : Int) (title author category : Option String)
    (total_copies : Option Int) : Except LibError Book × Library :=
  match alLookup lib.books bid with
  | none => (.error .notFound, lib)
  | some book =>
    let book := applyTextFields book title author category
    match total_copies with
    | none => (.ok book, { lib with books := alInsert lib.books bid book })
    | some tc =>
      if tc < book.total_copies - book.available_copies then
        (.error .invalidArgument, { lib with books := alInsert lib.books bid book })
      else
        let book := { book with total_copies := tc,
                                available_copies := book.available_copies + (tc - book.total_copies) }
        let book := if book.available_copies < 0
          then { book with available_copies := 0 } else book
        (.ok book, { lib with books := alInsert lib.books bid book })

/-- `Library.delete_book` (library.py, lines 174-178). -/
def delete_book (lib : Library) (bid : Int) : Except LibError Unit × Library :=
  if alContains lib.books bid then (.ok (), { lib with books := alErase lib.books bid })
  else (.error .notFound, lib)

/-- One `continue`-guard of the `search_books` loop: the book passes the
filter when the filter is absent, is the empty string (Python truthiness of
`if title and ...`), or is a case-insensitive substring of the field. -/
def passFilter (filt : Option String) (fieldVal : String) : Bool :=
  match filt with
  | none => true
  | some f => f.data.isEmpty || substrB (lowerStr f) (lowerStr fieldVal)

/-- `Library.search_books` (library.py, lines 182-197); read-only. -/
def search_books (lib : Library) (title author category : Option String) :
    List Book :=
  (lib.books.map Prod.snd).filter fun b =>
    passFilter title b.title && passFilter author b.author &&
      passFilter category b.category

/-- `Library.list_all_books` (library.py, lines 199-200); read-only. -/
def list_all_books (lib : Library) : List Book := lib.books.map Prod.snd

/-- `Library.list_available_books` (library.py, lines 202-203); read-only. -/
def list_available_books (lib : Library) : List Book :=
  (lib.books.map Prod.snd).filter fun b => b.is_available

/-- `Library.borrow_book` (library.py, lines 207-229). -/
def borrow_book (lib : Library) (uid bid : Int) (today : Date) :
    Except LibError BorrowRecord × Library :=
  match get_user lib uid with
  | .error e => (.error e, lib)
  | .ok user =>
    match alLookup lib.books bid with
    | none => (.error .notFound, lib)
    | some book =>
      if !book.is_available then (.error .unavailable, lib)
      else
        match book.borrow_copy with
        | .error e => (.error e, lib)
        | .ok book1 =>
          let record : BorrowRecord :=
            { record_id := lib.next_record_id, user_id := user.user_id,
              book_id := book.book_id, borrow_date := today,
              due_date := today + LOAN_DAYS, return_date := none }
          (.ok record,
           { lib with books := alInsert lib.books bid book1,
                      records := alInsert lib.records lib.next_record_id record,
                      next_record_id := lib.next_record_id + 1 })

/-- `Library.return_book` (library.py, lines 231-244). -/
def return_book (lib : Library) (rid : Int) (today : Date) :
    Except LibError BorrowRecord × Library :=
  match alLookup lib.records rid with
  | none => (.error .notFound, lib)
  | some record =>
    match record.return_date with
    | some _ => (.error .alreadyReturned, lib)
    | none =>
      match alLookup lib.books record.book_id with
      | none => (.error .notFound, lib)
      | some book =>
        match book.return_copy with
        | .error e => (.error e, lib)
        | .ok book1 =>
          let record1 := record.mark_returned today
          (.ok record1,
           { lib with books := alInsert lib.books record.book_id book1,
                      records := alInsert lib.records rid record1 })

/-- `Library.list_user_borrowed_books` (library.py, lines 246-251); read-only. -/
def list_user_borrowed_books (lib : Library) (uid : Int) :
    Except LibError (List BorrowRecord) :=
  match get_user lib uid with
  | .error e => .error e
  | .ok _ =>
    .ok ((lib.records.map Prod.snd).filter fun r =>
      r.user_id == uid && r.return_date.isNone)

/-- `Library.list_overdue_records` (library.py, lines 253-257); read-only,
`today` resolving the `date.today()` default. -/
def list_overdue_records (lib : Library) (today : Date) : List BorrowRecord :=
  (lib.records.map Prod.snd).filter fun r => r.is_overdue today

/-- The public operations of the Catalog Manager, as one syntactic type so
that properties quantifying over "every operation" can be stated. -/
inductive Op where
  | addUser (uid : Int) (name email : String)
  | getUser (uid : Int)
  | addBook (bid : Int) (title author category : String) (total : Int)
  | updateBook (bid : Int) (title author category : Option String) (total : Option Int)
  | deleteBook (bid : Int)
  | searchBooks (title author category : Option String)
  | listAllBooks
  | listAvailableBooks
  | borrowBook (uid bid : Int) (today : Date)
  | returnBook (rid : Int) (today : Date)
  | listUserBorrowedBooks (uid : Int)
  | listOverdueRecords (today : Date)
deriving DecidableEq

/-- Run one public operation: success-or-error outcome plus post-state.  The
read-only operations return the state unchanged (their list results carry no
state). -/
def stepE (lib : Library) : Op → Except LibError Unit × Library
  | .addUser uid n e => let r := add_user lib uid n e; (r.1.map fun _ => (), r.2)
  | .getUser uid => ((get_user lib uid).map fun _ => (), lib)
  | .addBook bid t a c tot => let r := add_book lib bid t a c tot; (r.1.map fun _ => (), r.2)
  | .updateBook bid t a c tot => let r := update_book lib bid t a c tot; (r.1.map fun _ => (), r.2)
  | .deleteBook bid => let r := delete_book lib bid; (r.1.map fun _ => (), r.2)
  | .searchBooks _ _ _ => (.ok (), lib)
  | .listAllBooks => (.ok (), lib)
  | .listAvailableBooks => (.ok (), lib)
  | .borrowBook uid bid d => let r := borrow_book lib uid bid d; (r.1.map fun _ => (), r.2)
  | .returnBook rid d => let r := return_book lib rid d; (r.1.map fun _ => (), r.2)
  | .listUserBorrowedBooks uid => ((list_user_borrowed_books lib uid).map fun _ => (), lib)
  | .listOverdueRecords _ => (.ok (), lib)

/-- Post-state of one public operation. -/
def stepL (lib : Library) (op : Op) : Library := (stepE lib op).2

/-- The copy-count invariant of a single `Book`. -/
def BookInv (b : Book) : Prop :=
  0 ≤ b.available_copies ∧ b.available_copies ≤ b.total_copies

/-- Every book stored in the catalog satisfies the copy-count invariant. -/
def LibBooksInv (lib : Library) : Prop := ∀ p ∈ lib.books, BookInv p.2

instance (b : Book) : Decidable (BookInv b) := by
  unfold BookInv; infer_instance

instance (lib : Library) : Decidable (LibBooksInv lib) := by
  unfold LibBooksInv; infer_instance

/-- A concrete state used by witnesses: Alice plus one catalogued book with
two copies, both available (the spec's §8 scenario data). -/
def lib0 : Library :=
  { users := [(1, { user_id := 1, name := "Alice", email := "a@x.com" })],
    books := [(100, { book_id := 100, title := "1984", author := "George Orwell",
                      category := "Fiction", total_copies := 2, available_copies := 2 })],
    records := [], next_record_id := 1 }

/-- The state built by `Library.__init__` (library.py, lines 98-102): empty
collections and the record-id counter at 1. -/
def initLibrary : Library :=
  { users := [], books := [], records := [], next_record_id := 1 }

/-- Spec-side search filter (spec §4.2): "every supplied filter is a
case-insensitive substring match against the corresponding field; omitted
filters impose no constraint".  To be compared with the code-derived
`passFilter`, which additionally short-circuits on empty filter strings
(Python truthiness). -/
def suppliedMatch (filt : Option String) (fieldVal : String) : Bool :=
  match filt with
  | none => true
  | some f => substrB (lowerStr f) (lowerStr fieldVal)

/-- Record-id bookkeeping invariant: record keys are distinct, each stored
record's `record_id` equals its key, and every key is below the counter. -/
def RecInv (lib : Library) : Prop :=
  (lib.records.map Prod.fst).Nodup ∧
  ∀ p ∈ lib.records, p.2.record_id = p.1 ∧ p.1 < lib.next_record_id

instance (lib : Library) : Decidable (RecInv lib) := by
  unfold RecInv; infer_instance

/-- A closed borrow record (already returned). -/
def recClosed : BorrowRecord :=
  { record_id := 1, user_id := 1, book_id := 100, borrow_date := 0,
    due_date := 14, return_date := some 3 }

/-- `lib0` with one closed borrow record. -/
def libR : Library := { lib0 with records := [(1, recClosed)] }

/-- `lib0` after borrowing one copy of book 100 (so one copy is out). -/
def libC2 : Library := (borrow_book lib0 1 100 0).2

/-- `lib0` after: borrow book 100 (record 1), delete book 100, add a
different book under id 100 with three copies, borrow it again (record 2).
Record 1 is still open and references the re-used id 100. -/
def libC10 : Library :=
  (borrow_book
    (add_book (delete_book (borrow_book lib0 1 100 0).2 100).2
      100 "Other" "Bob" "Sci" 3).2
    1 100 1).2

/-- The open record 1 as stored in `libC10`. -/
def recC10 : BorrowRecord :=
  { record_id := 1, user_id := 1, book_id := 100, borrow_date := 0,
    due_date := 14, return_date := none }

/-- The re-added book as stored in `libC10` (one of three copies out). -/
def bookC10 : Book :=
  { book_id := 100, title := "Other", author := "Bob", category := "Sci",
    total_copies := 3, available_copies := 2 }

theorem alContains_false {α : Type} {l : List (Int × α)} {k : Int}
    (h : alContains l k = false) : alLookup l k = none := by
  unfold alContains at h
  cases hl : alLookup l k with
  | none => rfl
  | some v => rw [hl] at h; simp at h

theorem alLookup_replace_self {α : Type} (l : List (Int × α)) (k : Int) (v : α)
    (h : alContains l k = true) :
    alLookup (l.map fun p => if p.1 = k then (k, v) else p) k = some v := by
  induction l with
  | nil => simp [alContains, alLookup] at h
  | cons p t ih =>
    by_cases hp : p.1 = k
    · simp [alLookup, hp]
    · have h' : alContains t k = true := by
        simpa [alContains, alLookup, hp] using h
      simp [alLookup, hp, ih h']

theorem alLookup_replace_ne {α : Type} (l : List (Int × α)) (k k' : Int) (v : α)
    (h : k ≠ k') :
    alLookup (l.map fun p => if p.1 = k then (k, v) else p) k' = alLookup l k' := by
  induction l with
  | nil => rfl
  | cons p t ih =>
    by_cases hp : p.1 = k
    · have : p.1 ≠ k' := hp ▸ h
      simp [alLookup, hp, h, this, ih]
    · by_cases hq : p.1 = k'
      · simp [alLookup, hp, hq, Ne.symm h]
      · simp [alLookup, hp, hq, ih]

theorem alLookup_append_of_none {α : Type} (l l2 : List (Int × α)) (k : Int)
    (h : alLookup l k = none) : alLookup (l ++ l2) k = alLookup l2 k := by
  induction l with
  | nil => rfl
  | cons p t ih =>
    by_cases hp : p.1 = k
    · simp [alLookup, hp] at h
    · simp [alLookup, hp] at h ⊢
      exact ih h

theorem alLookup_append_of_some {α : Type} (l l2 : List (Int × α)) (k : Int)
    (v : α) (h : alLookup l k = some v) : alLookup (l ++ l2) k = some v := by
  induction l with
  | nil => simp [alLookup] at h
  | cons p t ih =>
    by_cases hp : p.1 = k
    · simp [alLookup, hp] at h ⊢; exact h
    · simp [alLookup, hp] at h ⊢
      exact ih h

theorem alLookup_alInsert_self {α : Type} (l : List (Int × α)) (k : Int) (v : α) :
    alLookup (alInsert l k v) k = some v := by
  unfold alInsert
  by_cases h : alContains l k
  · rw [if_pos h]
    exact alLookup_replace_self l k v h
  · rw [if_neg h]
    rw [alLookup_append_of_none l _ k (alContains_false (Bool.eq_false_iff.2 h))]
    simp [alLookup]

theorem alLookup_alInsert_ne {α : Type} (l : List (Int × α)) (k k' : Int) (v : α)
    (h : k ≠ k') : alLookup (alInsert l k v) k' = alLookup l k' := by
  unfold alInsert
  by_cases hc : alContains l k
  · rw [if_pos hc]
    exact alLookup_replace_ne l k k' v h
  · rw [if_neg hc]
    cases hl : alLookup l k' with
    | some w => exact alLookup_append_of_some l _ k' w hl
    | none =>
      rw [alLookup_append_of_none l _ k' hl]
      simp [alLookup, h]

theorem mem_alInsert {α : Type} {l : List (Int × α)} {k : Int} {v : α}
    {p : Int × α} (h : p ∈ alInsert l k v) : p ∈ l ∨ p = (k, v) := by
  unfold alInsert at h
  by_cases hc : alContains l k
  · rw [if_pos hc] at h
    rcases List.mem_map.1 h with ⟨q, hq, he⟩
    by_cases hqk : q.1 = k
    · right; rw [if_pos hqk] at he; exact he.symm
    · left; rw [if_neg hqk] at he; exact he ▸ hq
  · rw [if_neg hc] at h
    rcases List.mem_append.1 h with h | h
    · exact Or.inl h
    · right; simpa using h

theorem mem_alErase {α : Type} {l : List (Int × α)} {k : Int} {p : Int × α}
    (h : p ∈ alErase l k) : p ∈ l :=
  (List.mem_filter.1 h).1

theorem alLookup_mem {α : Type} {l : List (Int × α)} {k : Int} {v : α}
    (h : alLookup l k = some v) : (k, v) ∈ l := by
  induction l with
  | nil => simp [alLookup] at h
  | cons p t ih =>
    by_cases hp : p.1 = k
    · simp [alLookup, hp] at h
      have hpv : p = (k, v) := Prod.ext hp h
      rw [hpv]
      exact List.mem_cons_self _ _
    · simp [alLookup, hp] at h
      exact List.mem_cons_of_mem _ (ih h)

theorem applyTextFields_copies (b : Book) (t a c : Option String) :
    (applyTextFields b t a c).total_copies = b.total_copies ∧
      (applyTextFields b t a c).available_copies = b.available_copies := by
  unfold applyTextFields
  cases t <;> cases a <;> cases c <;> exact ⟨rfl, rfl⟩

theorem booksInv_insert {lib : Library} {k : Int} {b : Book}
    (h : LibBooksInv lib) (hb : BookInv b) :
    ∀ p ∈ alInsert lib.books k b, BookInv p.2 := by
  intro p hp
  rcases mem_alInsert hp with hm | he
  · exact h p hm
  · rw [he]; exact hb

theorem booksInv_add_user (lib : Library) (uid : Int) (n e : String)
    (h : LibBooksInv lib) : LibBooksInv (add_user lib uid n e).2 := by
  unfold add_user
  by_cases hc : alContains lib.users uid
  · rw [if_pos hc]; exact h
  · rw [if_neg hc]; exact h

theorem booksInv_add_book (lib : Library) (bid : Int) (t a c : String)
    (tc : Int) (h : LibBooksInv lib) : LibBooksInv (add_book lib bid t a c tc).2 := by
  unfold add_book
  by_cases hc : alContains lib.books bid
  · rw [if_pos hc]; exact h
  · rw [if_neg hc]
    by_cases ht : tc ≤ 0
    · rw [if_pos ht]; exact h
    · rw [if_neg ht]
      refine booksInv_insert h ⟨?_, ?_⟩
      · show (0 : Int) ≤ tc
        omega
      · show tc ≤ tc
        omega

theorem booksInv_update_book (lib : Library) (bid : Int)
    (t a c : Option String) (tc : Option Int) (h : LibBooksInv lib) :
    LibBooksInv (update_book lib bid t a c tc).2 := by
  unfold update_book
  cases hl : alLookup lib.books bid with
  | none => exact h
  | some book =>
    have hb : BookInv book := h _ (alLookup_mem hl)
    obtain ⟨hb0, hb1⟩ := hb
    obtain ⟨htf0, htf1⟩ := applyTextFields_copies book t a c
    cases tc with
    | none =>
      simp only [update_book, hl]
      refine booksInv_insert h ⟨?_, ?_⟩
      · rw [htf1]; exact hb0
      · rw [htf1, htf0]; exact hb1
    | some tcv =>
      simp only [update_book, hl]
      by_cases hlt : tcv < (applyTextFields book t a c).total_copies -
          (applyTextFields book t a c).available_copies
      · rw [if_pos hlt]
        refine booksInv_insert h ⟨?_, ?_⟩
        · rw [htf1]; exact hb0
        · rw [htf1, htf0]; exact hb1
      · rw [if_neg hlt]
        by_cases hneg : (applyTextFields book t a c).available_copies +
            (tcv - (applyTextFields book t a c).total_copies) < 0
        · rw [if_pos hneg]
          refine booksInv_insert h ⟨?_, ?_⟩
          · show (0 : Int) ≤ 0
            omega
          · show (0 : Int) ≤ tcv
            omega
        · rw [if_neg hneg]
          refine booksInv_insert h ⟨?_, ?_⟩
          · show (0 : Int) ≤ (applyTextFields book t a c).available_copies +
              (tcv - (applyTextFields book t a c).total_copies)
            omega
          · show (applyTextFields book t a c).available_copies +
              (tcv - (applyTextFields book t a c).total_copies) ≤ tcv
            omega

theorem booksInv_delete_book (lib : Library) (bid : Int) (h : LibBooksInv lib) :
    LibBooksInv (delete_book lib bid).2 := by
  unfold delete_book
  by_cases hc : alContains lib.books bid
  · rw [if_pos hc]
    exact fun p hp => h p (mem_alErase hp)
  · rw [if_neg hc]; exact h

theorem booksInv_borrow_book (lib : Library) (uid bid : Int) (d : Date)
    (h : LibBooksInv lib) : LibBooksInv (borrow_book lib uid bid d).2 := by
  cases hg : get_user lib uid with
  | error e => simp only [borrow_book, hg]; exact h
  | ok user =>
    cases hl : alLookup lib.books bid with
    | none => simp only [borrow_book, hg, hl]; exact h
    | some book =>
      obtain ⟨hb0, hb1⟩ : BookInv book := h _ (alLookup_mem hl)
      simp only [borrow_book, hg, hl]
      by_cases hav : (!book.is_available) = true
      · rw [if_pos hav]; exact h
      · rw [if_neg hav]
        unfold Book.borrow_copy
        by_cases hle : book.available_copies ≤ 0
        · rw [if_pos hle]; exact h
        · rw [if_neg hle]
          refine booksInv_insert h ⟨?_, ?_⟩
          · show (0 : Int) ≤ book.available_copies - 1
            omega
          · show book.available_copies - 1 ≤ book.total_copies
            omega

theorem booksInv_return_book (lib : Library) (rid : Int) (d : Date)
    (h : LibBooksInv lib) : LibBooksInv (return_book lib rid d).2 := by
  cases hr : alLookup lib.records rid with
  | none => simp only [return_book, hr]; exact h
  | some record =>
    cases hd : record.return_date with
    | some x => simp only [return_book, hr, hd]; exact h
    | none =>
      cases hl : alLookup lib.books record.book_id with
      | none => simp only [return_book, hr, hd, hl]; exact h
      | some book =>
        obtain ⟨hb0, hb1⟩ : BookInv book := h _ (alLookup_mem hl)
        simp only [return_book, hr, hd, hl]
        unfold Book.return_copy
        by_cases hge : book.available_copies ≥ book.total_copies
        · rw [if_pos hge]; exact h
        · rw [if_neg hge]
          refine booksInv_insert h ⟨?_, ?_⟩
          · show (0 : Int) ≤ book.available_copies + 1
            omega
          · show book.available_copies + 1 ≤ book.total_copies
            omega

/-- C1: for every state whose books all satisfy `0 ≤ available_copies ≤
total_copies` and every public operation, the post-state's books all satisfy
it too, whether the operation succeeds or fails. -/
theorem c1_books_invariant_preserved (lib : Library) (op : Op)
    (h : LibBooksInv lib) : LibBooksInv (stepL lib op) := by
  cases op with
  | addUser uid n e => exact booksInv_add_user lib uid n e h
  | getUser uid => exact h
  | addBook bid t a c tot => exact booksInv_add_book lib bid t a c tot h
  | updateBook bid t a c tot => exact booksInv_update_book lib bid t a c tot h
  | deleteBook bid => exact booksInv_delete_book lib bid h
  | searchBooks t a c => exact h
  | listAllBooks => exact h
  | listAvailableBooks => exact h
  | borrowBook uid bid d => exact booksInv_borrow_book lib uid bid d h
  | returnBook rid d => exact booksInv_return_book lib rid d h
  | listUserBorrowedBooks uid => exact h
  | listOverdueRecords d => exact h

/-- Witness for C1 at a concrete state and operation. -/
theorem c1_books_invariant_preserved_witness :
    LibBooksInv lib0 ∧ LibBooksInv (stepL lib0 (Op.borrowBook 1 100 0)) :=
  ⟨by decide, c1_books_invariant_preserved lib0 (Op.borrowBook 1 100 0) (by decide)⟩

/-- C3: returning on a record whose `return_date` is already set fails with
`AlreadyReturned` and leaves the whole state (books and records included)
unchanged. -/
theorem c3_return_already_returned (lib : Library) (rid : Int) (today : Date)
    (r : BorrowRecord) (d : Date)
    (hr : alLookup lib.records rid = some r) (hd : r.return_date = some d) :
    return_book lib rid today = (.error .alreadyReturned, lib) := by
  simp only [return_book, hr, hd]

/-- Witness for C3 on a concrete closed record. -/
theorem c3_return_already_returned_witness :
    alLookup libR.records 1 = some recClosed ∧
    recClosed.return_date = some 3 ∧
    return_book libR 1 99 = (.error .alreadyReturned, libR) :=
  ⟨by decide, by decide,
    c3_return_already_returned libR 1 99 recClosed 3 (by decide) (by decide)⟩

/-- C9: `is_overdue` is false once `return_date` is set, regardless of the
reference date; on an open record it is true exactly when the reference date
is past `due_date`; and `list_overdue_records` returns exactly the stored
records that are overdue at the reference date. -/
theorem c9_overdue_spec (lib : Library) (d : Date) (r : BorrowRecord) :
    (∀ x, r.return_date = some x → r.is_overdue d = false) ∧
    (r.return_date = none → (r.is_overdue d = true ↔ d > r.due_date)) ∧
    (r ∈ list_overdue_records lib d ↔
      r ∈ lib.records.map Prod.snd ∧ r.is_overdue d = true) := by
  refine ⟨?_, ?_, ?_⟩
  · intro x hx
    simp [BorrowRecord.is_overdue, hx]
  · intro hn
    simp [BorrowRecord.is_overdue, hn]
  · unfold list_overdue_records
    exact List.mem_filter

/-- Witness for C9 on a concrete closed record and reference date. -/
theorem c9_overdue_spec_witness : recClosed.is_overdue 20 = false :=
  (c9_overdue_spec libR 20 recClosed).1 3 (by decide)

theorem isSubstrL_nil_left (hay : List Char) : isSubstrL [] hay = true := by
  cases hay <;> simp [isSubstrL, isPrefixL, List.isEmpty]

theorem passFilter_eq_suppliedMatch (f : Option String) (v : String) :
    passFilter f v = suppliedMatch f v := by
  cases f with
  | none => rfl
  | some s =>
    cases hs : s.data with
    | nil =>
      have hlow : (lowerStr s).data = [] := by
        simp [lowerStr, hs]
      simp only [passFilter, suppliedMatch, hs, List.isEmpty, Bool.true_or,
        substrB, String.toList, hlow, isSubstrL_nil_left]
    | cons a t =>
      simp [passFilter, suppliedMatch, hs, List.isEmpty]

/-- C8: `search_books` returns exactly the books for which every supplied
filter is a case-insensitive substring of the corresponding field, in
catalog insertion order (a filter of the stored book list), and it never
changes the state.  (It is a total function, so it never fails.) -/
theorem c8_search_books_spec (lib : Library) (t a c : Option String) :
    search_books lib t a c = (lib.books.map Prod.snd).filter
      (fun b => suppliedMatch t b.title && suppliedMatch a b.author &&
        suppliedMatch c b.category) ∧
    (∀ b, b ∈ search_books lib t a c ↔
      b ∈ list_all_books lib ∧
        (suppliedMatch t b.title && suppliedMatch a b.author &&
          suppliedMatch c b.category) = true) ∧
    stepL lib (Op.searchBooks t a c) = lib := by
  have he : ∀ b : Book,
      (passFilter t b.title && passFilter a b.author &&
        passFilter c b.category) =
      (suppliedMatch t b.title && suppliedMatch a b.author &&
        suppliedMatch c b.category) := by
    intro b
    rw [passFilter_eq_suppliedMatch, passFilter_eq_suppliedMatch,
      passFilter_eq_suppliedMatch]
  have hfil : search_books lib t a c = (lib.books.map Prod.snd).filter
      (fun b => suppliedMatch t b.title && suppliedMatch a b.author &&
        suppliedMatch c b.category) := by
    unfold search_books
    exact List.filter_congr (fun b _ => he b)
  refine ⟨hfil, ?_, rfl⟩
  intro b
  rw [hfil, List.mem_filter]
  exact Iff.rfl

/-- C10: `return_book` resolves the referenced book by id in the catalog at
return time: whenever the open record's book id is (again) present — in
particular after the original book was deleted and a different book was
added under the same id — the call does not fail with `NotFound`; it
increments that book's `available_copies` and closes the record when
`available_copies < total_copies`, and fails only with the defensive
`InvariantViolation` otherwise. -/
theorem c10_return_resolves_by_id (lib : Library) (rid : Int) (today : Date)
    (r : BorrowRecord) (b : Book)
    (hr : alLookup lib.records rid = some r) (hopen : r.return_date = none)
    (hb : alLookup lib.books r.book_id = some b) :
    (return_book lib rid today).1 ≠ .error .notFound ∧
    (b.available_copies < b.total_copies →
      return_book lib rid today =
        (.ok (r.mark_returned today),
         { lib with
             books := alInsert lib.books r.book_id
               { b with available_copies := b.available_copies + 1 },
             records := alInsert lib.records rid (r.mark_returned today) })) ∧
    (b.total_copies ≤ b.available_copies →
      return_book lib rid today = (.error .invariantViolation, lib)) := by
  simp only [return_book, hr, hopen, hb]
  unfold Book.return_copy
  by_cases hge : b.available_copies ≥ b.total_copies
  · rw [if_pos hge]
    refine ⟨by simp, ?_, fun _ => rfl⟩
    intro hlt
    omega
  · rw [if_neg hge]
    refine ⟨by simp, fun _ => rfl, ?_⟩
    intro hle
    omega

/-- Witness for C10 on the delete-then-re-add state `libC10`. -/
theorem c10_return_resolves_by_id_witness :
    alLookup libC10.records 1 = some recC10 ∧
    recC10.return_date = none ∧
    alLookup libC10.books 100 = some bookC10 ∧
    bookC10.available_copies < bookC10.total_copies ∧
    return_book libC10 1 9 =
      (.ok (recC10.mark_returned 9),
       { libC10 with
           books := alInsert libC10.books 100
             { bookC10 with available_copies := bookC10.available_copies + 1 },
           records := alInsert libC10.records 1 (recC10.mark_returned 9) }) :=
  ⟨by decide, by decide, by decide, by decide,
    (c10_return_resolves_by_id libC10 1 9 recC10 bookC10
      (by decide) (by decide) (by decide)).2.1 (by decide)⟩

theorem borrow_book_success_eq (lib : Library) (uid bid : Int) (d : Date)
    (u : User) (b : Book) (hu : alLookup lib.users uid = some u)
    (hb : alLookup lib.books bid = some b) (hgt : 0 < b.available_copies) :
    borrow_book lib uid bid d =
      (.ok { record_id := lib.next_record_id, user_id := u.user_id,
             book_id := b.book_id, borrow_date := d, due_date := d + 14,
             return_date := none },
       { lib with
           books := alInsert lib.books bid
             { b with available_copies := b.available_copies - 1 },
           records := alInsert lib.records lib.next_record_id
             { record_id := lib.next_record_id, user_id := u.user_id,
               book_id := b.book_id, borrow_date := d, due_date := d + 14,
               return_date := none },
           next_record_id := lib.next_record_id + 1 }) := by
  have hav : ¬ ((!b.is_available) = true) := by
    simp only [Book.is_available, Bool.not_eq_true']
    simpa using hgt
  have hbc : b.borrow_copy =
      .ok { b with available_copies := b.available_copies - 1 } := by
    unfold Book.borrow_copy
    rw [if_neg (by omega)]
  simp only [borrow_book, get_user, hu, hb, hbc]
  rw [if_neg hav]
  rfl

/-- C5: `borrow_book` fails `NotFound` on an absent user, then `NotFound` on
an absent book, then `Unavailable` on a book with no available copy (leaving
the state, records and counter included, unchanged in each case); otherwise
it decrements the book's `available_copies`, stores a fresh record with
`borrow_date = today`, `due_date = today + 14`, `record_id` = the current
counter value, increments the counter, and returns the record. -/
theorem c5_borrow_book_spec (lib : Library) (uid bid : Int) (d : Date) :
    (alLookup lib.users uid = none →
      borrow_book lib uid bid d = (.error .notFound, lib)) ∧
    (∀ u, alLookup lib.users uid = some u → alLookup lib.books bid = none →
      borrow_book lib uid bid d = (.error .notFound, lib)) ∧
    (∀ u b, alLookup lib.users uid = some u → alLookup lib.books bid = some b →
      b.available_copies ≤ 0 →
      borrow_book lib uid bid d = (.error .unavailable, lib)) ∧
    (∀ u b, alLookup lib.users uid = some u → alLookup lib.books bid = some b →
      0 < b.available_copies →
      borrow_book lib uid bid d =
        (.ok { record_id := lib.next_record_id, user_id := u.user_id,
               book_id := b.book_id, borrow_date := d, due_date := d + 14,
               return_date := none },
         { lib with
             books := alInsert lib.books bid
               { b with available_copies := b.available_copies - 1 },
             records := alInsert lib.records lib.next_record_id
               { record_id := lib.next_record_id, user_id := u.user_id,
                 book_id := b.book_id, borrow_date := d, due_date := d + 14,
                 return_date := none },
             next_record_id := lib.next_record_id + 1 })) := by
  refine ⟨?_, ?_, ?_, ?_⟩
  · intro hu
    simp only [borrow_book, get_user, hu]
  · intro u hu hb
    simp only [borrow_book, get_user, hu, hb]
  · intro u b hu hb hle
    have hav : (!b.is_available) = true := by
      simp only [Book.is_available, Bool.not_eq_true']
      simpa using not_lt.2 hle
    simp only [borrow_book, get_user, hu, hb]
    rw [if_pos hav]
  · intro u b hu hb hgt
    exact borrow_book_success_eq lib uid bid d u b hu hb hgt

/-- Witness for C5: the success case on `lib0`. -/
theorem c5_borrow_book_spec_witness :
    borrow_book lib0 1 100 7 =
      (.ok { record_id := 1, user_id := 1, book_id := 100, borrow_date := 7,
             due_date := 21, return_date := none },
       { lib0 with
           books := alInsert lib0.books 100
             { book_id := 100, title := "1984", author := "George Orwell",
               category := "Fiction", total_copies := 2, available_copies := 1 },
           records := alInsert lib0.records 1
             { record_id := 1, user_id := 1, book_id := 100, borrow_date := 7,
               due_date := 21, return_date := none },
           next_record_id := 2 }) :=
  (c5_borrow_book_spec lib0 1 100 7).2.2.2
    { user_id := 1, name := "Alice", email := "a@x.com" }
    { book_id := 100, title := "1984", author := "George Orwell",
      category := "Fiction", total_copies := 2, available_copies := 2 }
    (by decide) (by decide) (by decide)

theorem applyTextFields_eq (b : Book) (t a c : Option String) :
    applyTextFields b t a c =
      { book_id := b.book_id, title := t.getD b.title,
        author := a.getD b.author, category := c.getD b.category,
        total_copies := b.total_copies,
        available_copies := b.available_copies } := by
  cases t <;> cases a <;> cases c <;> rfl

/-- C6: `update_book` fails `NotFound` on an absent id; any unsupplied field
is left unchanged (`Option.getD` picks the old value); with `totalCopies`
supplied it fails `InvalidArgument` exactly when the new total is below the
borrowed count `total_copies - available_copies`, and otherwise sets the new
total and shifts `available_copies` by the difference, clamped below at 0. -/
theorem c6_update_book_spec (lib : Library) (bid : Int)
    (t a c : Option String) (tc : Int) :
    (alLookup lib.books bid = none →
      ∀ otc, update_book lib bid t a c otc = (.error .notFound, lib)) ∧
    (∀ b, alLookup lib.books bid = some b →
      (update_book lib bid t a c none).1 = .ok
        { book_id := b.book_id, title := t.getD b.title,
          author := a.getD b.author, category := c.getD b.category,
          total_copies := b.total_copies,
          available_copies := b.available_copies }) ∧
    (∀ b, alLookup lib.books bid = some b →
      tc < b.total_copies - b.available_copies →
      (update_book lib bid t a c (some tc)).1 = .error .invalidArgument) ∧
    (∀ b, alLookup lib.books bid = some b →
      b.total_copies - b.available_copies ≤ tc →
      (update_book lib bid t a c (some tc)).1 = .ok
        { book_id := b.book_id, title := t.getD b.title,
          author := a.getD b.author, category := c.getD b.category,
          total_copies := tc,
          available_copies :=
            max (b.available_copies + (tc - b.total_copies)) 0 }) := by
  refine ⟨?_, ?_, ?_, ?_⟩
  · intro hb otc
    simp only [update_book, hb]
  · intro b hb
    simp only [update_book, hb, applyTextFields_eq]
  · intro b hb hlt
    simp only [update_book, hb, applyTextFields_eq]
    rw [if_pos hlt]
  · intro b hb hge
    simp only [update_book, hb, applyTextFields_eq]
    rw [if_neg (not_lt.2 hge)]
    by_cases hneg : b.available_copies + (tc - b.total_copies) < 0
    · rw [if_pos hneg, max_eq_right (le_of_lt hneg)]
    · rw [if_neg hneg, max_eq_left (not_lt.1 hneg)]

/-- Witness for C6: a successful capacity reduction on `lib0` that leaves
all unsupplied fields unchanged. -/
theorem c6_update_book_spec_witness :
    (update_book lib0 100 none (some "Orwell") none (some 1)).1 = .ok
      { book_id := 100, title := "1984", author := "Orwell",
        category := "Fiction", total_copies := 1, available_copies := 1 } := by
  have h := (c6_update_book_spec lib0 100 none (some "Orwell") none 1).2.2.2
    { book_id := 100, title := "1984", author := "George Orwell",
      category := "Fiction", total_copies := 2, available_copies := 2 }
    (by decide) (by decide)
  simpa using h

/-- C4: in a state satisfying the book invariant where the user and the book
exist (under the book's own id) and a copy is available, borrowing and then
returning the resulting record (no interleaved operations) restores the
book's `available_copies` to its pre-borrow value. -/
theorem c4_borrow_return_roundtrip (lib : Library) (uid bid : Int)
    (d1 d2 : Date) (u : User) (b : Book)
    (hu : alLookup lib.users uid = some u) (hb : alLookup lib.books bid = some b)
    (hid : b.book_id = bid) (hav : 0 < b.available_copies)
    (hinv : b.available_copies ≤ b.total_copies) :
    ∃ rec : BorrowRecord, (borrow_book lib uid bid d1).1 = .ok rec ∧
      ∃ b2 : Book,
        alLookup (return_book (borrow_book lib uid bid d1).2
          rec.record_id d2).2.books bid = some b2 ∧
        b2.available_copies = b.available_copies := by
  have hbor := borrow_book_success_eq lib uid bid d1 u b hu hb hav
  refine ⟨_, by rw [hbor], ?_⟩
  rw [hbor]
  have hr1 : alLookup (alInsert lib.records lib.next_record_id
      { record_id := lib.next_record_id, user_id := u.user_id,
        book_id := b.book_id, borrow_date := d1, due_date := d1 + 14,
        return_date := none }) lib.next_record_id = some
      { record_id := lib.next_record_id, user_id := u.user_id,
        book_id := b.book_id, borrow_date := d1, due_date := d1 + 14,
        return_date := none } := alLookup_alInsert_self _ _ _
  have hbk : alLookup (alInsert lib.books bid
      { b with available_copies := b.available_copies - 1 }) b.book_id =
      some { b with available_copies := b.available_copies - 1 } := by
    rw [hid]; exact alLookup_alInsert_self _ _ _
  have hcond : ¬ (({ b with available_copies := b.available_copies - 1 } :
      Book).available_copies ≥
      ({ b with available_copies := b.available_copies - 1 } :
        Book).total_copies) := by
    show ¬ (b.available_copies - 1 ≥ b.total_copies)
    omega
  have hrc : Book.return_copy
      { b with available_copies := b.available_copies - 1 } =
      .ok { b with available_copies := b.available_copies - 1 + 1 } := by
    unfold Book.return_copy
    rw [if_neg hcond]
  simp only [return_book, hr1, hbk, hrc, BorrowRecord.mark_returned]
  refine ⟨{ b with available_copies := b.available_copies - 1 + 1 }, ?_, ?_⟩
  case refine_2 =>
    show b.available_copies - 1 + 1 = b.available_copies
    omega
  show alLookup (alInsert (alInsert lib.books bid
    { b with available_copies := b.available_copies - 1 }) b.book_id
    { b with available_copies := b.available_copies - 1 + 1 }) bid = _
  rw [hid]
  exact alLookup_alInsert_self _ _ _

/-- Witness for C4 on `lib0`. -/
theorem c4_borrow_return_roundtrip_witness :
    ∃ rec : BorrowRecord, (borrow_book lib0 1 100 0).1 = .ok rec ∧
      ∃ b2 : Book,
        alLookup (return_book (borrow_book lib0 1 100 0).2
          rec.record_id 5).2.books 100 = some b2 ∧
        b2.available_copies = 2 :=
  c4_borrow_return_roundtrip lib0 1 100 0 5
    { user_id := 1, name := "Alice", email := "a@x.com" }
    { book_id := 100, title := "1984", author := "George Orwell",
      category := "Fiction", total_copies := 2, available_copies := 2 }
    (by decide) (by decide) (by decide) (by decide) (by decide)

theorem except_map_error {α β : Type} (f : α → β) (x : Except LibError α)
    (e : LibError) (h : x.map f = .error e) : x = .error e := by
  cases x with
  | error e2 =>
    have he : e2 = e := by simpa [Except.map] using h
    rw [he]
  | ok a => simp [Except.map] at h

theorem add_user_err (lib : Library) (uid : Int) (n em : String)
    (err : LibError) (h : (add_user lib uid n em).1 = .error err) :
    (add_user lib uid n em).2 = lib := by
  unfold add_user at h ⊢
  by_cases hc : alContains lib.users uid
  · rw [if_pos hc]
  · rw [if_neg hc] at h
    simp at h

theorem add_book_err (lib : Library) (bid : Int) (t a c : String) (tc : Int)
    (err : LibError) (h : (add_book lib bid t a c tc).1 = .error err) :
    (add_book lib bid t a c tc).2 = lib := by
  unfold add_book at h ⊢
  by_cases hc : alContains lib.books bid
  · rw [if_pos hc]
  · rw [if_neg hc] at h ⊢
    by_cases ht : tc ≤ 0
    · rw [if_pos ht]
    · rw [if_neg ht] at h
      simp at h

theorem delete_book_err (lib : Library) (bid : Int) (err : LibError)
    (h : (delete_book lib bid).1 = .error err) : (delete_book lib bid).2 = lib := by
  unfold delete_book at h ⊢
  by_cases hc : alContains lib.books bid
  · rw [if_pos hc] at h
    simp at h
  · rw [if_neg hc]

theorem borrow_book_err (lib : Library) (uid bid : Int) (d : Date)
    (err : LibError) (h : (borrow_book lib uid bid d).1 = .error err) :
    (borrow_book lib uid bid d).2 = lib := by
  cases hg : get_user lib uid with
  | error e2 => simp only [borrow_book, hg]
  | ok user =>
    cases hl : alLookup lib.books bid with
    | none => simp only [borrow_book, hg, hl]
    | some book =>
      simp only [borrow_book, hg, hl] at h ⊢
      by_cases hav : (!book.is_available) = true
      · rw [if_pos hav]
      · rw [if_neg hav] at h ⊢
        unfold Book.borrow_copy at h ⊢
        by_cases hle : book.available_copies ≤ 0
        · rw [if_pos hle]
        · rw [if_neg hle] at h
          simp at h

theorem return_book_err (lib : Library) (rid : Int) (d : Date)
    (err : LibError) (h : (return_book lib rid d).1 = .error err) :
    (return_book lib rid d).2 = lib := by
  cases hr : alLookup lib.records rid with
  | none => simp only [return_book, hr]
  | some record =>
    cases hd : record.return_date with
    | some x => simp only [return_book, hr, hd]
    | none =>
      cases hl : alLookup lib.books record.book_id with
      | none => simp only [return_book, hr, hd, hl]
      | some book =>
        simp only [return_book, hr, hd, hl] at h ⊢
        unfold Book.return_copy at h ⊢
        by_cases hge : book.available_copies ≥ book.total_copies
        · rw [if_pos hge]
        · rw [if_neg hge] at h
          simp at h

/-- C2 counterexample: on a state with one copy of book 100 borrowed, an
`update_book` call supplying both a new title and an invalid `totalCopies`
fails with `InvalidArgument` but does NOT leave the state unchanged — the
title assignment already happened.  This refutes the claim that every
failing operation leaves the entire library state equal to the pre-state. -/
theorem c2_failure_mutates_counterexample :
    (stepE libC2 (Op.updateBook 100 (some "New") none none (some 0))).1 =
      .error .invalidArgument ∧
    stepL libC2 (Op.updateBook 100 (some "New") none none (some 0)) ≠ libC2 := by
  constructor
  · decide
  · decide

/-- C2 amended: a failing operation leaves the state unchanged, except that
a failing `update_book` with `totalCopies` supplied fails with
`InvalidArgument` only after the supplied title/author/category have been
written to the target book; even then every book's `total_copies` and
`available_copies` (and everything else in the state) are unchanged. -/
theorem c2_failure_states (lib : Library) (op : Op) (err : LibError)
    (h : (stepE lib op).1 = .error err) :
    stepL lib op = lib ∨
    ∃ bid t a c tcv b, op = Op.updateBook bid t a c (some tcv) ∧
      err = .invalidArgument ∧ alLookup lib.books bid = some b ∧
      (applyTextFields b t a c).total_copies = b.total_copies ∧
      (applyTextFields b t a c).available_copies = b.available_copies ∧
      stepL lib op =
        { lib with books := alInsert lib.books bid (applyTextFields b t a c) } := by
  cases op with
  | addUser uid n em =>
    exact Or.inl (add_user_err lib uid n em err (except_map_error _ _ _ h))
  | getUser uid => exact Or.inl rfl
  | addBook bid t a c tot =>
    exact Or.inl (add_book_err lib bid t a c tot err (except_map_error _ _ _ h))
  | updateBook bid t a c otc =>
    have h' := except_map_error _ _ _ h
    cases hl : alLookup lib.books bid with
    | none =>
      left
      show (update_book lib bid t a c otc).2 = lib
      simp only [update_book, hl]
    | some b =>
      cases otc with
      | none =>
        exfalso
        simp only [update_book, hl] at h'
        simp at h'
      | some tcv =>
        by_cases hlt : tcv < (applyTextFields b t a c).total_copies -
            (applyTextFields b t a c).available_copies
        · right
          simp only [update_book, hl] at h'
          rw [if_pos hlt] at h'
          simp only at h'
          have herr : err = LibError.invalidArgument := by
            injection h' with h''
            exact h''.symm
          refine ⟨bid, t, a, c, tcv, b, rfl, herr, hl,
            (applyTextFields_copies b t a c).1,
            (applyTextFields_copies b t a c).2, ?_⟩
          show (update_book lib bid t a c (some tcv)).2 = _
          simp only [update_book, hl]
          rw [if_pos hlt]
        · exfalso
          simp only [update_book, hl] at h'
          rw [if_neg hlt] at h'
          simp at h'
  | deleteBook bid =>
    exact Or.inl (delete_book_err lib bid err (except_map_error _ _ _ h))
  | searchBooks t a c => exact Or.inl rfl
  | listAllBooks => exact Or.inl rfl
  | listAvailableBooks => exact Or.inl rfl
  | borrowBook uid bid d =>
    exact Or.inl (borrow_book_err lib uid bid d err (except_map_error _ _ _ h))
  | returnBook rid d =>
    exact Or.inl (return_book_err lib rid d err (except_map_error _ _ _ h))
  | listUserBorrowedBooks uid => exact Or.inl rfl
  | listOverdueRecords d => exact Or.inl rfl

/-- Witness for the amended C2 on a concrete failing borrow. -/
theorem c2_failure_states_witness :
    (stepE lib0 (Op.borrowBook 99 100 0)).1 = .error .notFound ∧
    (stepL lib0 (Op.borrowBook 99 100 0) = lib0 ∨
      ∃ bid t a c tcv b, Op.borrowBook 99 100 0 = Op.updateBook bid t a c (some tcv) ∧
        LibError.notFound = LibError.invalidArgument ∧
        alLookup lib0.books bid = some b ∧
        (applyTextFields b t a c).total_copies = b.total_copies ∧
        (applyTextFields b t a c).available_copies = b.available_copies ∧
        stepL lib0 (Op.borrowBook 99 100 0) =
          { lib0 with books := alInsert lib0.books bid (applyTextFields b t a c) }) :=
  ⟨by decide, c2_failure_states lib0 (Op.borrowBook 99 100 0) .notFound (by decide)⟩

theorem alInsert_keys_of_contains {α : Type} (l : List (Int × α)) (k : Int)
    (v : α) (h : alContains l k = true) :
    (alInsert l k v).map Prod.fst = l.map Prod.fst := by
  unfold alInsert
  rw [if_pos h, List.map_map]
  apply List.map_congr_left
  intro p hp
  by_cases hpk : p.1 = k
  · simp [hpk]
  · simp [hpk]

theorem alInsert_keys_of_not_contains {α : Type} (l : List (Int × α)) (k : Int)
    (v : α) (h : alContains l k = false) :
    (alInsert l k v).map Prod.fst = l.map Prod.fst ++ [k] := by
  unfold alInsert
  rw [if_neg (by simp [h]), List.map_append]
  rfl

theorem recInv_fresh (lib : Library) (h : RecInv lib) :
    alContains lib.records lib.next_record_id = false := by
  unfold alContains
  cases hv : alLookup lib.records lib.next_record_id with
  | none => rfl
  | some v => exact absurd ((h.2 _ (alLookup_mem hv)).2) (by simp)

theorem recInv_of_same (lib lib' : Library) (hr : lib'.records = lib.records)
    (hn : lib'.next_record_id = lib.next_record_id) (h : RecInv lib) :
    RecInv lib' := by
  unfold RecInv at h ⊢
  rw [hr, hn]
  exact h

theorem add_user_recs (lib : Library) (uid : Int) (n em : String) :
    ((add_user lib uid n em).2).records = lib.records ∧
    ((add_user lib uid n em).2).next_record_id = lib.next_record_id := by
  unfold add_user
  by_cases hc : alContains lib.users uid
  · rw [if_pos hc]; exact ⟨rfl, rfl⟩
  · rw [if_neg hc]; exact ⟨rfl, rfl⟩

theorem add_book_recs (lib : Library) (bid : Int) (t a c : String) (tc : Int) :
    ((add_book lib bid t a c tc).2).records = lib.records ∧
    ((add_book lib bid t a c tc).2).next_record_id = lib.next_record_id := by
  unfold add_book
  by_cases hc : alContains lib.books bid
  · rw [if_pos hc]; exact ⟨rfl, rfl⟩
  · rw [if_neg hc]
    by_cases ht : tc ≤ 0
    · rw [if_pos ht]; exact ⟨rfl, rfl⟩
    · rw [if_neg ht]; exact ⟨rfl, rfl⟩

theorem update_book_recs (lib : Library) (bid : Int) (t a c : Option String)
    (otc : Option Int) :
    ((update_book lib bid t a c otc).2).records = lib.records ∧
    ((update_book lib bid t a c otc).2).next_record_id = lib.next_record_id := by
  cases hl : alLookup lib.books bid with
  | none => refine ⟨?_, ?_⟩ <;> simp only [update_book, hl]
  | some b =>
    cases otc with
    | none => refine ⟨?_, ?_⟩ <;> simp only [update_book, hl]
    | some tcv =>
      simp only [update_book, hl]
      by_cases hlt : tcv < (applyTextFields b t a c).total_copies -
          (applyTextFields b t a c).available_copies
      · rw [if_pos hlt]; exact ⟨rfl, rfl⟩
      · rw [if_neg hlt]; exact ⟨rfl, rfl⟩

theorem delete_book_recs (lib : Library) (bid : Int) :
    ((delete_book lib bid).2).records = lib.records ∧
    ((delete_book lib bid).2).next_record_id = lib.next_record_id := by
  unfold delete_book
  by_cases hc : alContains lib.books bid
  · rw [if_pos hc]; exact ⟨rfl, rfl⟩
  · rw [if_neg hc]; exact ⟨rfl, rfl⟩

theorem return_book_next (lib : Library) (rid : Int) (d : Date) :
    ((return_book lib rid d).2).next_record_id = lib.next_record_id := by
  cases hr : alLookup lib.records rid with
  | none => simp only [return_book, hr]
  | some record =>
    cases hd : record.return_date with
    | some x => simp only [return_book, hr, hd]
    | none =>
      cases hl : alLookup lib.books record.book_id with
      | none => simp only [return_book, hr, hd, hl]
      | some book =>
        simp only [return_book, hr, hd, hl]
        unfold Book.return_copy
        by_cases hge : book.available_copies ≥ book.total_copies
        · rw [if_pos hge]
        · rw [if_neg hge]

theorem borrow_book_next (lib : Library) (uid bid : Int) (d : Date) :
    ((borrow_book lib uid bid d).2).next_record_id = lib.next_record_id ∨
    ((borrow_book lib uid bid d).2).next_record_id = lib.next_record_id + 1 := by
  cases hg : get_user lib uid with
  | error e2 => left; simp only [borrow_book, hg]
  | ok user =>
    cases hl : alLookup lib.books bid with
    | none => left; simp only [borrow_book, hg, hl]
    | some book =>
      simp only [borrow_book, hg, hl]
      by_cases hav : (!book.is_available) = true
      · left; rw [if_pos hav]
      · rw [if_neg hav]
        unfold Book.borrow_copy
        by_cases hle : book.available_copies ≤ 0
        · left; rw [if_pos hle]
        · right; rw [if_neg hle]

theorem recInv_return (lib : Library) (rid : Int) (d : Date)
    (h : RecInv lib) : RecInv (return_book lib rid d).2 := by
  cases hr : alLookup lib.records rid with
  | none => simp only [return_book, hr]; exact h
  | some record =>
    cases hd : record.return_date with
    | some x => simp only [return_book, hr, hd]; exact h
    | none =>
      cases hl : alLookup lib.books record.book_id with
      | none => simp only [return_book, hr, hd, hl]; exact h
      | some book =>
        simp only [return_book, hr, hd, hl]
        unfold Book.return_copy
        by_cases hge : book.available_copies ≥ book.total_copies
        · rw [if_pos hge]; exact h
        · rw [if_neg hge]
          have hcont : alContains lib.records rid = true := by
            unfold alContains; rw [hr]; rfl
          have hrm := h.2 _ (alLookup_mem hr)
          constructor
          · show ((alInsert lib.records rid
              (record.mark_returned d)).map Prod.fst).Nodup
            rw [alInsert_keys_of_contains _ _ _ hcont]
            exact h.1
          · intro p hp
            rcases mem_alInsert hp with hm | heq
            · exact h.2 p hm
            · rw [heq]
              exact ⟨hrm.1, hrm.2⟩

theorem recInv_borrow (lib : Library) (uid bid : Int) (d : Date)
    (h : RecInv lib) : RecInv (borrow_book lib uid bid d).2 := by
  cases hg : get_user lib uid with
  | error e2 => simp only [borrow_book, hg]; exact h
  | ok user =>
    cases hl : alLookup lib.books bid with
    | none => simp only [borrow_book, hg, hl]; exact h
    | some book =>
      simp only [borrow_book, hg, hl]
      by_cases hav : (!book.is_available) = true
      · rw [if_pos hav]; exact h
      · rw [if_neg hav]
        unfold Book.borrow_copy
        by_cases hle : book.available_copies ≤ 0
        · rw [if_pos hle]; exact h
        · rw [if_neg hle]
          have hfresh : alContains lib.records lib.next_record_id = false :=
            recInv_fresh lib h
          constructor
          · show ((alInsert lib.records lib.next_record_id _).map Prod.fst).Nodup
            rw [alInsert_keys_of_not_contains _ _ _ hfresh]
            rw [List.nodup_append]
            refine ⟨h.1, List.nodup_singleton _, ?_⟩
            intro x hx hx2
            simp only [List.mem_singleton] at hx2
            rcases List.mem_map.1 hx with ⟨p, hp, hpx⟩
            have := (h.2 p hp).2
            omega
          · intro p hp
            rcases mem_alInsert hp with hm | heq
            · obtain ⟨hm1, hm2⟩ := h.2 p hm
              refine ⟨hm1, ?_⟩
              show p.1 < lib.next_record_id + 1
              omega
            · rw [heq]
              refine ⟨rfl, ?_⟩
              show lib.next_record_id < lib.next_record_id + 1
              omega

theorem borrow_book_ok_inv (lib : Library) (uid bid : Int) (d : Date)
    (rec : BorrowRecord) (lib1 : Library)
    (he : borrow_book lib uid bid d = (.ok rec, lib1)) :
    rec.record_id = lib.next_record_id ∧
    lib1.next_record_id = lib.next_record_id + 1 ∧
    lib1.records = alInsert lib.records lib.next_record_id rec := by
  cases hg : get_user lib uid with
  | error e2 => simp only [borrow_book, hg] at he; simp [Prod.ext_iff] at he
  | ok user =>
    cases hl : alLookup lib.books bid with
    | none => simp only [borrow_book, hg, hl] at he; simp [Prod.ext_iff] at he
    | some book =>
      simp only [borrow_book, hg, hl] at he
      by_cases hav : (!book.is_available) = true
      · rw [if_pos hav] at he; simp [Prod.ext_iff] at he
      · rw [if_neg hav] at he
        unfold Book.borrow_copy at he
        by_cases hle : book.available_copies ≤ 0
        · rw [if_pos hle] at he; simp [Prod.ext_iff] at he
        · rw [if_neg hle] at he
          have h1 := congrArg Prod.fst he
          have h2 := congrArg Prod.snd he
          simp only at h1 h2
          injection h1 with hrec
          refine ⟨?_, ?_, ?_⟩
          · rw [← hrec]
          · rw [← h2]
          · rw [← h2, ← hrec]

/-- C7: the record-id counter starts at 1 in the initial state, never
decreases, is unchanged by every failing operation and by every operation
other than `borrowBook`, and a successful borrow assigns the current counter
value as the new record id — an id never used by any stored record and
strictly greater than all existing record ids — then increments the counter;
the record-id bookkeeping invariant (distinct ids, each below the counter)
is preserved by every operation. -/
theorem c7_record_id_counter (lib : Library) (op : Op) (h : RecInv lib) :
    initLibrary.next_record_id = 1 ∧
    RecInv (stepL lib op) ∧
    lib.next_record_id ≤ (stepL lib op).next_record_id ∧
    (∀ err, (stepE lib op).1 = .error err →
      (stepL lib op).next_record_id = lib.next_record_id) ∧
    ((∀ uid bid d, op ≠ Op.borrowBook uid bid d) →
      (stepL lib op).next_record_id = lib.next_record_id) ∧
    (∀ uid bid d rec lib1, borrow_book lib uid bid d = (.ok rec, lib1) →
      rec.record_id = lib.next_record_id ∧
      lib1.next_record_id = lib.next_record_id + 1 ∧
      alContains lib.records rec.record_id = false ∧
      ∀ q ∈ lib.records, q.2.record_id < rec.record_id) := by
  refine ⟨rfl, ?_, ?_, ?_, ?_, ?_⟩
  · cases op with
    | addUser uid n em =>
      exact recInv_of_same _ _ (add_user_recs lib uid n em).1
        (add_user_recs lib uid n em).2 h
    | getUser uid => exact h
    | addBook bid t a c tot =>
      exact recInv_of_same _ _ (add_book_recs lib bid t a c tot).1
        (add_book_recs lib bid t a c tot).2 h
    | updateBook bid t a c otc =>
      exact recInv_of_same _ _ (update_book_recs lib bid t a c otc).1
        (update_book_recs lib bid t a c otc).2 h
    | deleteBook bid =>
      exact recInv_of_same _ _ (delete_book_recs lib bid).1
        (delete_book_recs lib bid).2 h
    | searchBooks t a c => exact h
    | listAllBooks => exact h
    | listAvailableBooks => exact h
    | borrowBook uid bid d => exact recInv_borrow lib uid bid d h
    | returnBook rid d => exact recInv_return lib rid d h
    | listUserBorrowedBooks uid => exact h
    | listOverdueRecords d => exact h
  · cases op with
    | addUser uid n em => exact le_of_eq (add_user_recs lib uid n em).2.symm
    | getUser uid => exact le_refl _
    | addBook bid t a c tot => exact le_of_eq (add_book_recs lib bid t a c tot).2.symm
    | updateBook bid t a c otc =>
      exact le_of_eq (update_book_recs lib bid t a c otc).2.symm
    | deleteBook bid => exact le_of_eq (delete_book_recs lib bid).2.symm
    | searchBooks t a c => exact le_refl _
    | listAllBooks => exact le_refl _
    | listAvailableBooks => exact le_refl _
    | borrowBook uid bid d =>
      show lib.next_record_id ≤ ((borrow_book lib uid bid d).2).next_record_id
      rcases borrow_book_next lib uid bid d with hn | hn
      · rw [hn]
      · rw [hn]; omega
    | returnBook rid d => exact le_of_eq (return_book_next lib rid d).symm
    | listUserBorrowedBooks uid => exact le_refl _
    | listOverdueRecords d => exact le_refl _
  · cases op with
    | addUser uid n em => exact fun _ _ => (add_user_recs lib uid n em).2
    | getUser uid => exact fun _ _ => rfl
    | addBook bid t a c tot => exact fun _ _ => (add_book_recs lib bid t a c tot).2
    | updateBook bid t a c otc =>
      exact fun _ _ => (update_book_recs lib bid t a c otc).2
    | deleteBook bid => exact fun _ _ => (delete_book_recs lib bid).2
    | searchBooks t a c => exact fun _ _ => rfl
    | listAllBooks => exact fun _ _ => rfl
    | listAvailableBooks => exact fun _ _ => rfl
    | borrowBook uid bid d =>
      intro err herr
      have hlib := borrow_book_err lib uid bid d err (except_map_error _ _ _ herr)
      show ((borrow_book lib uid bid d).2).next_record_id = lib.next_record_id
      rw [hlib]
    | returnBook rid d => exact fun _ _ => return_book_next lib rid d
    | listUserBorrowedBooks uid => exact fun _ _ => rfl
    | listOverdueRecords d => exact fun _ _ => rfl
  · cases op with
    | addUser uid n em => exact fun _ => (add_user_recs lib uid n em).2
    | getUser uid => exact fun _ => rfl
    | addBook bid t a c tot => exact fun _ => (add_book_recs lib bid t a c tot).2
    | updateBook bid t a c otc =>
      exact fun _ => (update_book_recs lib bid t a c otc).2
    | deleteBook bid => exact fun _ => (delete_book_recs lib bid).2
    | searchBooks t a c => exact fun _ => rfl
    | listAllBooks => exact fun _ => rfl
    | listAvailableBooks => exact fun _ => rfl
    | borrowBook uid bid d =>
      intro hne
      exact absurd rfl (hne uid bid d)
    | returnBook rid d => exact fun _ => return_book_next lib rid d
    | listUserBorrowedBooks uid => exact fun _ => rfl
    | listOverdueRecords d => exact fun _ => rfl
  · intro uid bid d rec lib1 he
    obtain ⟨h1, h2, h3⟩ := borrow_book_ok_inv lib uid bid d rec lib1 he
    refine ⟨h1, h2, ?_, ?_⟩
    · rw [h1]
      exact recInv_fresh lib h
    · intro q hq
      obtain ⟨hq1, hq2⟩ := h.2 q hq
      rw [h1]
      omega

/-- Witness for C7: concrete state and operation. -/
theorem c7_record_id_counter_witness :
    RecInv lib0 ∧ RecInv (stepL lib0 (Op.borrowBook 1 100 0)) :=
  ⟨by decide, (c7_record_id_counter lib0 (Op.borrowBook 1 100 0) (by decide)).2.1⟩

end LibSys
